import Mathlib

/-!
Verification development for `bitbucket_linter.py`.

The program fetches an open Bitbucket pull request for a branch, runs pylint
over the `.py` files named in the pull request diff, posts one inline comment
per finding that is not already present, and finally approves or unapproves
the pull request.

The embedding below models the Python string operations the script uses
(`split`, `strip`, `replace`, `lower`, `upper`, `startswith`, `endswith`,
`join`, `str`), a restricted `json.loads` (flat objects whose values are
strings or integers, which covers the pylint message template the script
installs), and the script's functions `BitbucketCommenter.get_diff_files`,
`PyLinter._get_py_diff_files`, `PyLinter._generate_comments_map`,
`PyLinter.run`, `BitbucketCommenter._fetch_pull_request` and `main`.
Remote-API effects (posting a comment, approving/unapproving) are recorded in
the result value instead of performed.
-/

/-! ## Python string primitives -/

/-- Characters stripped by Python `str.strip()`. -/
def isPySpace (c : Char) : Bool :=
  c = ' ' || c = '\t' || c = '\n' || c = '\r' || c = '\x0b' || c = '\x0c'

/-- Python `s.strip()`. -/
def pyStrip (s : String) : String :=
  String.mk (((s.data.dropWhile isPySpace).reverse.dropWhile isPySpace).reverse)

/-- Python `s.lower()` (ASCII range, which is all the script produces). -/
def pyLower (s : String) : String := String.mk (s.data.map Char.toLower)

/-- Python `s.upper()` (ASCII range). -/
def pyUpper (s : String) : String := String.mk (s.data.map Char.toUpper)

/-- Python `s.startswith(p)`. -/
def pyStartswith (s p : String) : Bool := s.data.take p.data.length == p.data

/-- Python `s.endswith(p)`. -/
def pyEndswith (s p : String) : Bool := s.data.reverse.take p.data.length == p.data.reverse

/-- First occurrence of `sep` in a character list: `some (before, after)`. -/
def findSub (sep : List Char) : List Char → Option (List Char × List Char)
  | [] => none
  | c :: cs =>
    if (c :: cs).take sep.length == sep then some ([], (c :: cs).drop sep.length)
    else
      match findSub sep cs with
      | some (b, a) => some (c :: b, a)
      | none => none

/-- Splitting on a non-empty separator, with fuel bounding the number of cuts. -/
def splitChars (sep : List Char) : Nat → List Char → List (List Char)
  | 0, l => [l]
  | Nat.succ fuel, l =>
    match findSub sep l with
    | none => [l]
    | some (b, a) => b :: splitChars sep fuel a

/-- Python `s.split(sep)` for a non-empty `sep`. -/
def pySplit (s sep : String) : List String :=
  (splitChars sep.data (s.data.length + 1) s.data).map String.mk

/-- Replacement with fuel bounding the number of substitutions. -/
def replChars (old new : List Char) : Nat → List Char → List Char
  | 0, l => l
  | Nat.succ fuel, l =>
    match findSub old l with
    | none => l
    | some (b, a) => b ++ new ++ replChars old new fuel a

/-- Python `s.replace(old, new)` for a non-empty `old`. -/
def pyReplace (s old new : String) : String :=
  String.mk (replChars old.data new.data (s.data.length + 1) s.data)

/-- Python `sep.join(xs)`. -/
def pyJoin (sep : String) (xs : List String) : String :=
  String.mk (List.intercalate sep.data (xs.map String.data))

/-- Python `str(n)` for an integer `n`. -/
def pyIntStr (n : Int) : String :=
  if n < 0 then "-" ++ Nat.repr n.natAbs else Nat.repr n.natAbs

/-- Python `s.isalnum()` (ASCII range). -/
def pyIsAlnum (s : String) : Bool :=
  !s.data.isEmpty && s.data.all Char.isAlphanum

/-! ## JSON values and a model of `json.loads`

The script's pylint message template emits flat JSON objects whose values are
strings and integers, so the model parses exactly that fragment; any other
input makes the parse fail, which the script's `except` clause turns into a
skipped line. -/

/-- A JSON value as produced by the message template: a string or an integer. -/
inductive JVal where
  | jstr : String → JVal
  | jnum : Int → JVal
deriving DecidableEq

/-- Python `str(v)` of a decoded JSON value. -/
def pyStr : JVal → String
  | .jstr s => s
  | .jnum n => pyIntStr n

/-- The JSON string escapes the model accepts, as (escape letter, decoded
character) pairs. -/
def escPairs : List (Char × Char) :=
  [('n', '\n'), ('t', '\t'), ('r', '\r'), ('"', '"'), ('\\', '\\'), ('/', '/'),
   ('b', '\x08'), ('f', '\x0c')]

/-- Decode one escape letter. -/
def jsonEscChar (e : Char) : Option Char :=
  (escPairs.find? (fun pr => pr.1 == e)).map (fun pr => pr.2)

/-- Parse the body of a JSON string (the opening quote already consumed). -/
def jsonStrBody : List Char → Option (List Char × List Char)
  | [] => none
  | '"' :: cs => some ([], cs)
  | '\\' :: e :: cs =>
    match jsonEscChar e, jsonStrBody cs with
    | some u, some (s, r) => some (u :: s, r)
    | _, _ => none
  | c :: cs =>
    match jsonStrBody cs with
    | some (s, r) => some (c :: s, r)
    | none => none

def digitVal (c : Char) : Nat := c.toNat - '0'.toNat

def takeDigits : List Char → (List Char × List Char)
  | [] => ([], [])
  | c :: cs =>
    if c.isDigit then
      match takeDigits cs with
      | (ds, r) => (c :: ds, r)
    else ([], c :: cs)

def digitsVal (ds : List Char) : Nat := ds.foldl (fun n c => n * 10 + digitVal c) 0

/-- Parse a JSON integer.  A fractional part or exponent makes the parse fail:
floating-point findings are outside the model. -/
def parseNum (l : List Char) : Option (Int × List Char) :=
  match l with
  | '-' :: cs =>
    match takeDigits cs with
    | ([], _) => none
    | (ds, r) =>
      match r with
      | '.' :: _ => none
      | 'e' :: _ => none
      | 'E' :: _ => none
      | _ => some (-(digitsVal ds : Int), r)
  | cs =>
    match takeDigits cs with
    | ([], _) => none
    | (ds, r) =>
      match r with
      | '.' :: _ => none
      | 'e' :: _ => none
      | 'E' :: _ => none
      | _ => some ((digitsVal ds : Int), r)

def skipWs : List Char → List Char
  | [] => []
  | c :: cs => if c = ' ' || c = '\t' || c = '\n' || c = '\r' then skipWs cs else c :: cs

/-- Parse one JSON value: a string or an integer. -/
def parseJVal (l : List Char) : Option (JVal × List Char) :=
  match l with
  | '"' :: cs =>
    match jsonStrBody cs with
    | some (s, r) => some (.jstr (String.mk s), r)
    | none => none
  | cs =>
    match parseNum cs with
    | some (n, r) => some (.jnum n, r)
    | none => none

/-- Parse the members of a JSON object, positioned at the first key. -/
def parseMembersF : Nat → List Char → Option (List (String × JVal) × List Char)
  | 0, _ => none
  | Nat.succ fuel, cs =>
    match cs with
    | '"' :: cs1 =>
      match jsonStrBody cs1 with
      | some (k, cs2) =>
        match skipWs cs2 with
        | ':' :: cs3 =>
          match parseJVal (skipWs cs3) with
          | some (v, cs4) =>
            match skipWs cs4 with
            | ',' :: cs5 =>
              match parseMembersF fuel (skipWs cs5) with
              | some (d, r) => some ((String.mk k, v) :: d, r)
              | none => none
            | '\x7d' :: cs5 => some ([(String.mk k, v)], cs5)
            | _ => none
          | none => none
        | _ => none
      | none => none
    | _ => none

/-- Model of Python `json.loads` restricted to flat objects with string or
integer values.  Returns the member list; a later duplicate key shadows an
earlier one at lookup time, as in a Python dict. -/
def json_loads_flat (s : String) : Option (List (String × JVal)) :=
  match skipWs s.data with
  | '\x7b' :: cs =>
    match skipWs cs with
    | '\x7d' :: r => if (skipWs r).isEmpty then some [] else none
    | cs1 =>
      match parseMembersF (cs1.length + 1) cs1 with
      | some (d, r) => if (skipWs r).isEmpty then some d else none
      | none => none
  | _ => none

/-- Python `d[k]` on the decoded object: the last binding of `k` wins. -/
def jlookup (d : List (String × JVal)) (k : String) : Option JVal :=
  match d.reverse.find? (fun kv => kv.1 == k) with
  | some kv => some kv.2
  | none => none

/-! ## The script's constants and diff handling

`self.pull_request.diff()` returns bytes; the script takes `str(...)` of it,
so the text it actually manipulates is the Python `repr` of a bytes object, in
which line breaks appear as the two characters `\n`.  The model therefore
works on that representation: `get_diff_files` splits on the two-character
sequence backslash-n exactly as `diff.split("\\n")` does in the source. -/

def DIFF_FILE_START_MAGIC : String := "+++ b/"

/-- `BitbucketCommenter.get_diff_files`: the lines of the diff that start with
`+++ b/`, with that marker removed. -/
def get_diff_files (diff : String) : List String :=
  let diff_lines := pySplit diff "\\n"
  let file_lines := diff_lines.filter (fun dl => pyStartswith dl DIFF_FILE_START_MAGIC)
  file_lines.map (fun dl => String.mk (dl.data.drop DIFF_FILE_START_MAGIC.data.length))

/-- `PyLinter._get_py_diff_files`: keep the diff files whose stripped name
ends in `.py`. -/
def get_py_diff_files (diff : String) : List String :=
  (get_diff_files diff).filter (fun df => pyEndswith (pyStrip df) ".py")

/-- The `--msg-template` value the script passes to pylint (its literal text,
after Python resolves the doubled braces of the source literal). -/
def PYLINT_MESSAGE_TEMPLATE : String :=
  "\x7b\x7b\"path\":\"\x7bpath\x7d\",\"line\":\x7bline\x7d,\"column\":\x7bcolumn\x7d,\"msg\":\"\x7bmsg\x7d\",\"msg_id\":\"\x7bmsg_id\x7d\",\"category\":\"\x7bcategory\x7d\",\"symbol\":\"\x7bsymbol\x7d\"\x7d\x7d"

/-- The shell command `PyLinter.run` builds for `subprocess.check_output`:
`"pylint --output-format=text --msg-template='%s' \"%s\"; exit 0" %
(PYLINT_MESSAGE_TEMPLATE, '" "'.join(py_diff_files))`. -/
def pylint_command (files : List String) : String :=
  "pylint --output-format=text --msg-template=\x27" ++ PYLINT_MESSAGE_TEMPLATE ++
    "\x27 \"" ++ pyJoin "\" \"" files ++ "\"; exit 0"

/-- Exit status of `sh -c cmd` when the tool invoked by `cmd` exits with
`toolExit`: a command whose text ends in `; exit 0` finishes with the `exit 0`
builtin, so the shell's status is 0 whatever `toolExit` was. -/
def shell_exit_code (cmd : String) (toolExit : Int) : Int :=
  if pyEndswith cmd "; exit 0" then 0 else toolExit

/-- `subprocess.check_output` raises `CalledProcessError` exactly when the
shell's exit status is non-zero. -/
def check_output_raises (cmd : String) (toolExit : Int) : Bool :=
  shell_exit_code cmd toolExit != 0

/-! ## Existing comments and the dedup map -/

/-- The `inline` sub-object of a fetched pull-request comment. -/
structure InlineInfo where
  to_line : JVal
  path : JVal
deriving DecidableEq

/-- A comment fetched from the pull request.  `is_comment_type` models
`type(c) == Comment`; `inline_info` is present exactly when `"inline" in
c.data`; the author is carried so that author-scoping can be stated, but the
script never reads it. -/
structure BBComment where
  is_comment_type : Bool
  author : String
  inline_info : Option InlineInfo
  content_raw : String
deriving DecidableEq

/-- `PyLinter._generate_comments_map`: the set of
`(str(to).strip().lower(), str(path).strip().lower(), str(raw).strip().lower())`
keys over the fetched comments that are of type `Comment` and have inline
data.  Membership in the Python set is modeled by list membership. -/
def generate_comments_map (cs : List BBComment) : List (String × String × String) :=
  cs.filterMap (fun c =>
    match c.inline_info with
    | some i =>
      if c.is_comment_type then
        some (pyLower (pyStrip (pyStr i.to_line)), pyLower (pyStrip (pyStr i.path)),
              pyLower (pyStrip c.content_raw))
      else none
    | none => none)

/-! ## Processing one pylint output line -/

/-- A comment the script posts: `post_comment(content, data["path"], data["line"])`. -/
structure Post where
  content : String
  filename : JVal
  line_to : JVal
deriving DecidableEq

/-- The dedup key the loop builds for a finding, from the same three values
that go into the posted comment. -/
def post_key (p : Post) : String × String × String :=
  (pyLower (pyStrip (pyStr p.line_to)), pyLower (pyStrip (pyStr p.filename)),
   pyLower (pyStrip p.content))

/-- The comment body:
`"%(category)s (%(msg_id)s %(symbol)s):\n\n```\n%(msg)s\n```\n"` with
`category` upper-cased and the two-character `\n` sequences of `msg` turned
back into newlines. -/
def render_content (category msg_id symbol msg : String) : String :=
  category ++ " (" ++ msg_id ++ " " ++ symbol ++ "):\n\n```\n" ++ msg ++ "\n```\n"

/-- What the loop body does with one output line before any dedup check. -/
inductive LineStep where
  | skip
  | abort
  | finding : Post → LineStep
deriving DecidableEq

/-- `line.strip().replace("\n", "\\n")`, then add the braces the earlier
`split("}\\n{")` removed, when missing. -/
def fix_line (l : String) : String :=
  let l1 := pyReplace (pyStrip l) "\n" "\\n"
  let l2 := if pyStartswith l1 "\x7b" then l1 else "\x7b" ++ l1
  if pyEndswith l2 "\x7d" then l2 else l2 ++ "\x7d"

/-- One iteration of the loop in `PyLinter.run` up to the dedup check.
`json.loads` failing is caught by the `except` and skips the line.  The field
accesses `data["category"].upper()`, `data["msg"].replace(...)`,
`data["msg_id"]`, `data["symbol"]`, `data["line"]`, `data["path"]` happen
outside the `try`, so a line that decodes to an object missing one of those
keys (or whose `category`/`msg` is not a string) raises an uncaught exception
and aborts the run. -/
def process_line (l : String) : LineStep :=
  match json_loads_flat (fix_line l) with
  | none => .skip
  | some d =>
    match jlookup d "category", jlookup d "msg_id", jlookup d "symbol",
          jlookup d "msg", jlookup d "line", jlookup d "path" with
    | some (.jstr cat), some mid, some sym, some (.jstr msg), some line, some path =>
      .finding ⟨render_content (pyUpper cat) (pyStr mid) (pyStr sym)
                  (pyReplace msg "\\n" "\n"), path, line⟩
    | _, _, _, _, _, _ => .abort

/-- Outcome of the comment loop: either it raised partway (with the comments
posted before the raise) or it finished, with `had_comments` true when at
least one line decoded to a finding. -/
inductive LinesOutcome where
  | aborted : List Post → LinesOutcome
  | finished : List Post → Bool → LinesOutcome
deriving DecidableEq

/-- The comment loop of `PyLinter.run`.  `cmap` is the dedup map computed once
before the loop; it is not extended as comments are posted. -/
def run_lines : List String → List (String × String × String) → LinesOutcome
  | [], _ => .finished [] false
  | l :: ls, cmap =>
    match process_line l with
    | .skip => run_lines ls cmap
    | .abort => .aborted []
    | .finding p =>
      let newPosts := if post_key p ∈ cmap then [] else [p]
      match run_lines ls cmap with
      | .aborted ps => .aborted (newPosts ++ ps)
      | .finished ps _ => .finished (newPosts ++ ps) true

/-- `pylint_stdout[2:-1].split("}\\n{")`: drop the `b'` prefix and closing
quote of the bytes repr, then split between records. -/
def pylint_output_lines (pylint_stdout : String) : List String :=
  pySplit (String.mk ((pylint_stdout.data.drop 2).dropLast)) "\x7d\\n\x7b"

/-- The terminal approval action of a run. -/
inductive ApprovalAction where
  | approve
  | unapprove
  | noaction
deriving DecidableEq

/-- Result of `PyLinter.run`: the comments posted and the terminal action, or
an abort (uncaught exception) with the comments posted before it. -/
inductive RunOutcome where
  | aborted : List Post → RunOutcome
  | completed : List Post → ApprovalAction → RunOutcome
deriving DecidableEq

def run_posts : RunOutcome → List Post
  | .aborted ps => ps
  | .completed ps _ => ps

def run_action : RunOutcome → ApprovalAction
  | .aborted _ => .noaction
  | .completed _ a => a

/-- `PyLinter.run`.  Inputs: the diff text (as the script sees it, see
`get_diff_files`), the pylint stdout (as the `str(...)` of the captured
bytes), and the comments currently on the pull request.  The guard
`if not py_diff_files` tests the bare `filter` object that
`_get_py_diff_files` returns, and under Python 3 — the reading the whole
script commits to through its bytes-repr string handling — a filter object is
always truthy, so the early return is dead code: the method always invokes
pylint (the diff only selects the files named on its command line, which the
model reflects through the stdout input) and processes the output lines
against the dedup map, finally unapproving when `had_comments` was set —
that is, when at least one line decoded to a finding, posted or not — and
approving otherwise. -/
def run (diff : String) (pylint_stdout : String) (existing : List BBComment) : RunOutcome :=
  match run_lines (pylint_output_lines pylint_stdout) (generate_comments_map existing) with
  | .aborted ps => .aborted ps
  | .finished ps had => .completed ps (if had then .unapprove else .approve)

/-- The round trip through the Bitbucket API: a posted inline comment comes
back as an inline comment of type `Comment`, authored by the posting actor,
with the posted line, path and body. -/
def post_to_comment (actor : String) (p : Post) : BBComment :=
  ⟨true, actor, some ⟨p.line_to, p.filename⟩, p.content⟩

/-- True when the line decodes to a finding. -/
def LineStep.isFinding : LineStep → Bool
  | .finding _ => true
  | _ => false

/-- Whether any output line decodes to a finding — the final value of
`had_comments` when no line aborts. -/
def any_parsed (lines : List String) : Bool :=
  lines.any (fun l => (process_line l).isFinding)

/-! ## Fetching the pull request and `main` -/

/-- What the script reads of one pull request returned by the query:
`"source" in pr.data`, `pr.source.get("branch", {}).get("name")` and
`pr.state`. -/
structure PRInfo where
  has_source : Bool
  source_branch : Option String
  state : String
deriving DecidableEq

/-- The filter in `_fetch_pull_request`: has a source, the source branch name
equals the configured branch, and the state upper-cases to `OPEN`. -/
def matching_prs (prs : List PRInfo) (branch : String) : List PRInfo :=
  prs.filter (fun pr =>
    pr.has_source && (pr.source_branch == some branch) && (pyUpper pr.state == "OPEN"))

inductive FetchOutcome where
  | found : PRInfo → FetchOutcome
  | exit0
  | loops
deriving DecidableEq

/-- `_fetch_pull_request` against a remote whose pull-request list does not
change between retries.  With `retries = 0` the `while` guard fails at once
and the method runs into `sys.exit(0)`.  Otherwise each iteration sees the
same query result: exactly one match returns it; any other count retries, so
negative `retries` loops forever and positive `retries` falls through to
`sys.exit(0)`. -/
def fetch_pull_request (prs : List PRInfo) (branch : String) (retries : Int) : FetchOutcome :=
  if retries = 0 then .exit0
  else
    match matching_prs prs branch with
    | [pr] => .found pr
    | _ => if retries < 0 then .loops else .exit0

/-- Observable outcome of `main`: the usage message with return value 1, the
`sys.exit(0)` from `_fetch_pull_request`, an endless retry loop, the
`ValueError` from `int()` on an alphanumeric non-numeric retries argument, or
a completed construction followed by `PyLinter.run`. -/
inductive MainOutcome where
  | usageExit1
  | fetchExit0
  | fetchLoops
  | retriesCrash
  | ran : RunOutcome → MainOutcome
deriving DecidableEq

/-- `int(s)` for the retries argument: defined exactly on digit strings. -/
def digitsToNat? (s : String) : Option Nat :=
  if !s.data.isEmpty && s.data.all Char.isDigit then some (digitsVal s.data) else none

/-- `args[6] if args[6] != "-" else os.environ["BITBUCKET_BRANCH_NAME"]`. -/
def effective_branch (args : List String) (env : String → String) : String :=
  if args.getD 6 "" = "-" then env "BITBUCKET_BRANCH_NAME" else args.getD 6 ""

/-- `retries = -1`, overridden by `int(args[7])` when an eighth argument is
given, is not `-`, and is alphanumeric; `int()` raises on an alphanumeric
argument that is not all digits. -/
def parsed_retries (args : List String) : Option Int :=
  if 7 < args.length ∧ args.getD 7 "" ≠ "-" ∧ pyIsAlnum (args.getD 7 "") = true then
    match digitsToNat? (args.getD 7 "") with
    | some n => some (n : Int)
    | none => none
  else some (-1)

/-- `main`, with the remote state (`prs`, `diff`, existing comments), the
environment and the would-be pylint stdout as explicit inputs.  The
credential arguments select which account acts but change nothing the model
observes. -/
def main_model (args : List String) (env : String → String) (prs : List PRInfo)
    (diff pylint_stdout : String) (existing : List BBComment) : MainOutcome :=
  if args.length < 7 then .usageExit1
  else
    match parsed_retries args with
    | none => .retriesCrash
    | some r =>
      match fetch_pull_request prs (effective_branch args env) r with
      | .exit0 => .fetchExit0
      | .loops => .fetchLoops
      | .found _ => .ran (run diff pylint_stdout existing)

def main_posts : MainOutcome → List Post
  | .ran r => run_posts r
  | _ => []

/-- Whether the outcome changed the approval state. -/
def approval_changed : MainOutcome → Bool
  | .ran r =>
    match run_action r with
    | .noaction => false
    | _ => true
  | _ => false

/-! ## The specification's diff-range extractor

The specification describes an extractor that derives a per-file set of
changed line numbers from the hunk headers.  The script has no such code —
`get_diff_files` keeps only file names — so, for the claims that compare the
two, the extractor is defined here from the specification's words: track the
current target file from `+++ b/<path>` markers, apply the extension filter,
and for each header `@@ -<old_start>,<old_len> +<new_start>,<new_len> @@` add
the closed-open range `[new_start, new_start + new_len)`, a missing length
defaulting to 1. -/

/-- Parse the `+<new_start>,<new_len>` field of a hunk header. -/
def parse_plus_range (tok : String) : Option (Int × Int) :=
  if pyStartswith tok "+" then
    match pySplit (String.mk (tok.data.drop 1)) "," with
    | [a] =>
      match digitsToNat? a with
      | some n => some ((n : Int), 1)
      | none => none
    | [a, b] =>
      match digitsToNat? a, digitsToNat? b with
      | some n, some m => some ((n : Int), (m : Int))
      | _, _ => none
    | _ => none
  else none

/-- Parse a hunk header `@@ -<old> +<new> @@ ...`, returning the new-file
start and length. -/
def parse_hunk_header (l : String) : Option (Int × Int) :=
  match pySplit l " " with
  | "@@" :: minus :: plus :: "@@" :: _ =>
    if pyStartswith minus "-" then parse_plus_range plus else none
  | _ => none

/-- Scan of the diff lines per the specification: `cur` is the current target
file when it passed the extension filter.  Yields one `(file, start, len)`
triple per hunk header of a tracked file. -/
def specDiffScan (ext : String) : List String → Option String → List (String × Int × Int)
  | [], _ => []
  | l :: ls, cur =>
    if pyStartswith l DIFF_FILE_START_MAGIC then
      let f := String.mk (l.data.drop DIFF_FILE_START_MAGIC.data.length)
      specDiffScan ext ls (if pyEndswith f ext then some f else none)
    else
      match cur, parse_hunk_header l with
      | some f, some (c, d) => (f, c, d) :: specDiffScan ext ls cur
      | _, _ => specDiffScan ext ls cur

/-- The changed-line set of `file` per the specification's extractor: the
union (as a list) of the ranges `[new_start, new_start + new_len)` over the
hunks of `file`. -/
def specChangedLines (ext diff file : String) : List Int :=
  ((specDiffScan ext (pySplit diff "\\n") none).filter (fun t => t.1 = file)).flatMap
    (fun t => (List.range t.2.2.toNat).map (fun i => t.2.1 + (i : Int)))

/-- Whether a posted comment's line lies in the specification's changed-line
set for its file. -/
def post_in_changed_lines (diff : String) (p : Post) : Bool :=
  match p.line_to with
  | .jnum n => (specChangedLines ".py" diff (pyStr p.filename)).contains n
  | .jstr _ => false

/-- Whether an output line decodes to a finding whose line number lies in the
specification's changed-line set for its file — "survives filtering" in the
specification's sense. -/
def finding_survives_spec (diff : String) (l : String) : Bool :=
  match process_line l with
  | .finding p => post_in_changed_lines diff p
  | _ => false

/-- The comments a `LinesOutcome` carries. -/
def lines_posts : LinesOutcome → List Post
  | .aborted ps => ps
  | .finished ps _ => ps

/-- The file names `get_diff_files` extracts from a list of diff lines. -/
def filesOf (ls : List String) : List String :=
  (ls.filter (fun dl => pyStartswith dl DIFF_FILE_START_MAGIC)).map
    (fun dl => String.mk (dl.data.drop DIFF_FILE_START_MAGIC.data.length))

/-! ## Concrete inputs used by counterexamples and witnesses

Each diff is written as the script sees it (`str` of the bytes returned by
the API, so `\n` is the two-character line separator), and each pylint stdout
as the `str` of the captured bytes (`b'...'`). -/

def c1_diff : String := "+++ b/a.py\\n@@ -10,3 +10,5 @@"

def c1_stdout : String :=
  "b\x27\x7b\"path\":\"a.py\",\"line\":9,\"column\":0,\"msg\":\"Missing docstring\",\"msg_id\":\"C0111\",\"category\":\"convention\",\"symbol\":\"missing-docstring\"\x7d\x27"

def c1_post : Post :=
  ⟨"CONVENTION (C0111 missing-docstring):\n\n```\nMissing docstring\n```\n",
   .jstr "a.py", .jnum 9⟩

def c2_diff1 : String := "+++ b/a.py\\n@@ -10,3 +10,5 @@"

def c2_diff2 : String := "+++ b/a.py\\n@@ -20,3 +20,7 @@"

def c3_diff : String := "+++ b/b.py\\n@@ -10,3 +10,5 @@"

def c3_stdout : String :=
  "b\x27\x7b\"path\":\"b.py\",\"line\":9,\"column\":0,\"msg\":\"Bad indentation\",\"msg_id\":\"W0311\",\"category\":\"warning\",\"symbol\":\"bad-indentation\"\x7d\x27"

def c7_diff : String := "+++ b/c.py\\n@@ -1,2 +1,2 @@"

/-- Two analyzer records: the first is partial (only `path` and `line`, so it
decodes as JSON but is not a finding record), the second is well formed. -/
def c7_stdout : String :=
  "b\x27\x7b\"path\":\"c.py\",\"line\":1\x7d\\n\x7b\"path\":\"c.py\",\"line\":2,\"column\":0,\"msg\":\"Missing docstring\",\"msg_id\":\"C0111\",\"category\":\"convention\",\"symbol\":\"missing-docstring\"\x7d\x27"

def c8_diff : String := "+++ b/d.py\\n@@ -1,2 +1,4 @@"

def c8_stdout : String :=
  "b\x27\x7b\"path\":\"d.py\",\"line\":2,\"column\":0,\"msg\":\"Missing docstring\",\"msg_id\":\"C0111\",\"category\":\"convention\",\"symbol\":\"missing-docstring\"\x7d\x27"

/-- An existing inline comment whose dedup key matches the finding of
`c8_stdout`. -/
def c8_comment : BBComment :=
  ⟨true, "alice", some ⟨.jnum 2, .jstr "d.py"⟩,
   "CONVENTION (C0111 missing-docstring):\n\n```\nMissing docstring\n```\n"⟩

def c10_diff : String := "+++ b/e.py\\n@@ -5,1 +5,3 @@"

def c10_stdout : String :=
  "b\x27\x7b\"path\":\"e.py\",\"line\":7,\"column\":4,\"msg\":\"Unused variable\",\"msg_id\":\"W0612\",\"category\":\"warning\",\"symbol\":\"unused-variable\"\x7d\x27"

/-- An existing inline comment whose dedup key matches the finding of
`c10_stdout`. -/
def c10_comment : BBComment :=
  ⟨true, "alice", some ⟨.jnum 7, .jstr "e.py"⟩,
   "WARNING (W0612 unused-variable):\n\n```\nUnused variable\n```\n"⟩

/-- An inline comment authored by someone other than the account the run
uses. -/
def c6_comment : BBComment := ⟨true, "mallory", some ⟨.jnum 3, .jstr "a.py"⟩, "Bad code"⟩

/-! ## Helper lemmas -/

theorem mem_dedup_singleton (p q : Post) (cmap : List (String × String × String))
    (hp : p ∈ (if post_key q ∈ cmap then ([] : List Post) else [q])) :
    p = q ∧ post_key q ∉ cmap := by
  by_cases h : post_key q ∈ cmap
  · rw [if_pos h] at hp
    exact absurd hp (List.not_mem_nil p)
  · rw [if_neg h] at hp
    exact ⟨List.mem_singleton.mp hp, h⟩

theorem run_lines_key_not_mem (lines : List String) (cmap : List (String × String × String)) :
    ∀ p ∈ lines_posts (run_lines lines cmap), post_key p ∉ cmap := by
  induction lines with
  | nil =>
    intro p hp
    simp [run_lines, lines_posts] at hp
  | cons l ls ih =>
    intro p hp
    cases hstep : process_line l with
    | skip =>
      simp only [run_lines, hstep] at hp
      exact ih p hp
    | abort =>
      simp only [run_lines, hstep, lines_posts] at hp
      exact absurd hp (List.not_mem_nil p)
    | finding q =>
      simp only [run_lines, hstep] at hp
      cases hrec : run_lines ls cmap with
      | aborted ps =>
        rw [hrec] at hp
        simp only [lines_posts] at hp
        rcases List.mem_append.mp hp with hnew | hold
        · rcases mem_dedup_singleton p q cmap hnew with ⟨rfl, hq⟩
          exact hq
        · exact ih p (by rw [hrec]; exact hold)
      | finished ps b =>
        rw [hrec] at hp
        simp only [lines_posts] at hp
        rcases List.mem_append.mp hp with hnew | hold
        · rcases mem_dedup_singleton p q cmap hnew with ⟨rfl, hq⟩
          exact hq
        · exact ih p (by rw [hrec]; exact hold)

theorem run_posts_eq (diff pylint_stdout : String) (existing : List BBComment) :
    run_posts (run diff pylint_stdout existing) =
      lines_posts (run_lines (pylint_output_lines pylint_stdout)
        (generate_comments_map existing)) := by
  simp only [run]
  cases run_lines (pylint_output_lines pylint_stdout) (generate_comments_map existing) <;> rfl

theorem run_lines_all_deduped (lines : List String) :
    ∀ cmap cmap' : List (String × String × String),
      (∀ k ∈ cmap, k ∈ cmap') →
      (∀ p ∈ lines_posts (run_lines lines cmap), post_key p ∈ cmap') →
      lines_posts (run_lines lines cmap') = [] := by
  induction lines with
  | nil =>
    intro cmap cmap' hsub hpost
    simp [run_lines, lines_posts]
  | cons l ls ih =>
    intro cmap cmap' hsub hpost
    cases hstep : process_line l with
    | skip =>
      have hpost' : ∀ p ∈ lines_posts (run_lines ls cmap), post_key p ∈ cmap' := by
        intro p hp
        exact hpost p (by simp only [run_lines, hstep]; exact hp)
      simpa only [run_lines, hstep] using ih cmap cmap' hsub hpost'
    | abort =>
      simp [run_lines, hstep, lines_posts]
    | finding q =>
      have hq : post_key q ∈ cmap' := by
        by_cases h : post_key q ∈ cmap
        · exact hsub _ h
        · refine hpost q ?_
          simp only [run_lines, hstep]
          cases hrec : run_lines ls cmap <;>
            simp [lines_posts, if_neg h]
      have hpost' : ∀ p ∈ lines_posts (run_lines ls cmap), post_key p ∈ cmap' := by
        intro p hp
        refine hpost p ?_
        simp only [run_lines, hstep]
        cases hrec : run_lines ls cmap with
        | aborted ps =>
          rw [hrec] at hp
          simp only [lines_posts] at hp ⊢
          exact List.mem_append_right _ hp
        | finished ps b =>
          rw [hrec] at hp
          simp only [lines_posts] at hp ⊢
          exact List.mem_append_right _ hp
      have hih := ih cmap cmap' hsub hpost'
      simp only [run_lines, hstep, if_pos hq]
      cases hrec' : run_lines ls cmap' <;>
        rw [hrec'] at hih <;>
        simp only [lines_posts] at hih ⊢ <;>
        simp [hih]

theorem generate_comments_map_append (a b : List BBComment) :
    generate_comments_map (a ++ b) = generate_comments_map a ++ generate_comments_map b :=
  List.filterMap_append a b _

theorem post_key_mem_posted (actor : String) (ps : List Post) (p : Post) (hp : p ∈ ps) :
    post_key p ∈ generate_comments_map (ps.map (post_to_comment actor)) := by
  unfold generate_comments_map
  rw [List.filterMap_map]
  exact List.mem_filterMap.mpr ⟨p, hp, rfl⟩

theorem run_lines_no_abort (lines : List String) (cmap : List (String × String × String))
    (h : ∀ l ∈ lines, process_line l ≠ .abort) :
    ∃ ps, run_lines lines cmap = .finished ps (any_parsed lines) := by
  induction lines with
  | nil => exact ⟨[], rfl⟩
  | cons l ls ih =>
    obtain ⟨ps, hps⟩ := ih (fun x hx => h x (List.mem_cons_of_mem l hx))
    cases hstep : process_line l with
    | skip =>
      refine ⟨ps, ?_⟩
      simp only [run_lines, hstep, hps, any_parsed, List.any_cons]
      simp [hstep, LineStep.isFinding]
    | abort => exact absurd hstep (h l (List.mem_cons_self l ls))
    | finding q =>
      refine ⟨(if post_key q ∈ cmap then [] else [q]) ++ ps, ?_⟩
      simp only [run_lines, hstep, hps, any_parsed, List.any_cons]
      simp [hstep, LineStep.isFinding]

/-- With no aborting output line, the run completes, unapproving exactly when
some line decoded to a finding. -/
theorem run_shape_of_no_abort (diff pylint_stdout : String) (existing : List BBComment)
    (hnoabort : ∀ l ∈ pylint_output_lines pylint_stdout, process_line l ≠ .abort) :
    ∃ ps, run diff pylint_stdout existing = .completed ps
      (if any_parsed (pylint_output_lines pylint_stdout) then .unapprove else .approve) := by
  obtain ⟨ps, hps⟩ := run_lines_no_abort (pylint_output_lines pylint_stdout)
    (generate_comments_map existing) hnoabort
  exact ⟨ps, by simp only [run, hps]⟩

theorem run_lines_skip_middle (l : String) (post : List String)
    (cmap : List (String × String × String)) (h : process_line l = .skip) :
    ∀ pre : List String,
      run_lines (pre ++ l :: post) cmap = run_lines (pre ++ post) cmap := by
  intro pre
  induction pre with
  | nil => simp only [List.nil_append, run_lines, h]
  | cons x xs ih =>
    simp only [List.cons_append, run_lines, List.append_eq, ih]

theorem pyEndswith_append (s t p : String) (h : pyEndswith t p = true) :
    pyEndswith (s ++ t) p = true := by
  unfold pyEndswith at h ⊢
  rw [beq_iff_eq] at h ⊢
  have hlen : p.data.length ≤ t.data.reverse.length := by
    have hl := congrArg List.length h
    simp only [List.length_take, List.length_reverse] at hl
    rw [List.length_reverse]
    omega
  rw [String.data_append, List.reverse_append,
      List.take_append_of_le_length hlen, h]

theorem get_diff_files_eq_filesOf (diff : String) :
    get_diff_files diff = filesOf (pySplit diff "\\n") := rfl

theorem filesOf_cons (l : String) (ls : List String) :
    filesOf (l :: ls) =
      if pyStartswith l DIFF_FILE_START_MAGIC = true
      then String.mk (l.data.drop DIFF_FILE_START_MAGIC.data.length) :: filesOf ls
      else filesOf ls := by
  by_cases hl : pyStartswith l DIFF_FILE_START_MAGIC = true
  · simp [filesOf, List.filter_cons, hl]
  · simp [filesOf, List.filter_cons, hl]

theorem specDiffScan_mem (ext : String) :
    ∀ (ls : List String) (cur : Option String) (t : String × Int × Int),
      t ∈ specDiffScan ext ls cur → cur = some t.1 ∨ t.1 ∈ filesOf ls := by
  intro ls
  induction ls with
  | nil =>
    intro cur t ht
    simp [specDiffScan] at ht
  | cons l ls ih =>
    intro cur t ht
    by_cases hl : pyStartswith l DIFF_FILE_START_MAGIC = true
    · simp only [specDiffScan, if_pos hl] at ht
      right
      rw [filesOf_cons, if_pos hl]
      rcases ih _ t ht with hcur | hmem
      · by_cases hext :
          pyEndswith (String.mk (l.data.drop DIFF_FILE_START_MAGIC.data.length)) ext = true
        · rw [if_pos hext] at hcur
          exact List.mem_cons.mpr (Or.inl (Option.some.inj hcur).symm)
        · rw [if_neg hext] at hcur
          exact absurd hcur (by simp)
      · exact List.mem_cons_of_mem _ hmem
    · simp only [specDiffScan, if_neg hl] at ht
      have hrest : t.1 ∈ filesOf ls → t.1 ∈ filesOf (l :: ls) := by
        intro hm
        rw [filesOf_cons, if_neg hl]
        exact hm
      cases cur with
      | none =>
        rcases ih _ t ht with hc | hm
        · exact absurd hc (by simp)
        · exact Or.inr (hrest hm)
      | some f =>
        cases hparse : parse_hunk_header l with
        | none =>
          rw [hparse] at ht
          rcases ih _ t ht with hc | hm
          · exact Or.inl hc
          · exact Or.inr (hrest hm)
        | some cd =>
          rw [hparse] at ht
          obtain ⟨c, d⟩ := cd
          rcases List.mem_cons.mp ht with heq | ht'
          · exact Or.inl (by rw [heq])
          · rcases ih _ t ht' with hc | hm
            · exact Or.inl hc
            · exact Or.inr (hrest hm)

/-! ## Claims -/

set_option maxRecDepth 20000

/-- Claim C1 (amended): a comment is posted for a finding only if its
`(line, path, content)` dedup key is absent from the existing-comment set.
The script performs no changed-line filtering — only whole files named in the
diff are linted — so the posted line can lie outside the changed-line set. -/
theorem c1_posted_key_absent (diff pylint_stdout : String) (existing : List BBComment) :
    ∀ p ∈ run_posts (run diff pylint_stdout existing),
      post_key p ∉ generate_comments_map existing := by
  intro p hp
  rw [run_posts_eq diff pylint_stdout existing] at hp
  exact run_lines_key_not_mem _ _ p hp

/-- Claim C1 witness: the single comment of the `c1` run has a key absent
from the (empty) existing-comment set. -/
theorem c1_posted_key_absent_witness :
    post_key c1_post ∉ generate_comments_map [] :=
  c1_posted_key_absent c1_diff c1_stdout [] c1_post (by decide)

/-- Claim C1 counterexample: the diff changes only lines 10-14 of `a.py`, yet
the run posts the finding at line 9 — a posted comment whose line is outside
its file's changed-line set. -/
theorem c1_counterexample :
    run c1_diff c1_stdout [] = .completed [c1_post] .unapprove ∧
      post_in_changed_lines c1_diff c1_post = false :=
  ⟨by decide, by decide⟩

/-- Claim C2 (amended): the script's diff extractor returns only the file
names after `+++ b/` markers and computes no line ranges; every file to which
the specification's hunk-range extractor assigns changed lines is among the
extracted names. -/
theorem c2_spec_files_extracted (ext diff f : String)
    (h : specChangedLines ext diff f ≠ []) : f ∈ get_diff_files diff := by
  rw [get_diff_files_eq_filesOf]
  unfold specChangedLines at h
  have hex : ∃ t ∈ (specDiffScan ext (pySplit diff "\\n") none).filter (fun t => t.1 = f),
      ¬ ((List.range t.2.2.toNat).map (fun i => t.2.1 + (i : Int))) = [] := by
    by_contra hc
    push_neg at hc
    exact h (List.flatMap_eq_nil_iff.mpr hc)
  obtain ⟨t, htmem, -⟩ := hex
  have hf : t.1 = f := of_decide_eq_true (List.mem_filter.mp htmem).2
  rcases specDiffScan_mem ext _ none t (List.mem_filter.mp htmem).1 with hc | hm
  · exact absurd hc (by simp)
  · rw [hf] at hm
    exact hm

/-- Claim C2 witness: `a.py` has changed lines, and is among the extracted
file names. -/
theorem c2_spec_files_extracted_witness : "a.py" ∈ get_diff_files c2_diff1 :=
  c2_spec_files_extracted ".py" c2_diff1 "a.py" (by decide)

/-- Claim C2 counterexample: two diffs with different hunk ranges give the
same extractor output, so the extractor does not return the hunk ranges; the
specification's own extractor distinguishes them. -/
theorem c2_counterexample :
    get_diff_files c2_diff1 = get_diff_files c2_diff2 ∧
      specChangedLines ".py" c2_diff1 "a.py" = [10, 11, 12, 13, 14] ∧
      specChangedLines ".py" c2_diff2 "a.py" = [20, 21, 22, 23, 24, 25, 26] ∧
      specChangedLines ".py" c2_diff1 "a.py" ≠ specChangedLines ".py" c2_diff2 "a.py" :=
  ⟨by decide, by decide, by decide, by decide⟩

/-- Claim C3 counterexample: the only finding is at line 9 of `b.py`, outside
the changed lines 10-14, so zero findings survive the specification's filter
— yet the run ends with unapprove, not approve. -/
theorem c3_counterexample :
    ((pylint_output_lines c3_stdout).all
        (fun l => !(finding_survives_spec c3_diff l))) = true ∧
      run_action (run c3_diff c3_stdout []) = .unapprove :=
  ⟨by decide, by decide⟩

/-- Claim C3 (amended): approval toggling is unconditional (the script has no
flag for it), and every run whose output lines do not abort it ends approved
exactly when no output line decodes to a finding, and unapproved when at
least one does — regardless of changed-line position or deduplication.  (The
empty-diff-file early return is dead code — a Python 3 filter object is
always truthy — so no diff-file condition is needed.) -/
theorem c3_approval_from_parsed (diff pylint_stdout : String) (existing : List BBComment)
    (hnoabort : ∀ l ∈ pylint_output_lines pylint_stdout, process_line l ≠ .abort) :
    ∃ ps, run diff pylint_stdout existing = .completed ps
      (if any_parsed (pylint_output_lines pylint_stdout) then .unapprove else .approve) :=
  run_shape_of_no_abort diff pylint_stdout existing hnoabort

/-- Claim C3 witness. -/
theorem c3_approval_from_parsed_witness :
    ∃ ps, run c3_diff c3_stdout [] = .completed ps
      (if any_parsed (pylint_output_lines c3_stdout) then .unapprove else .approve) :=
  c3_approval_from_parsed c3_diff c3_stdout [] (by decide)

/-- Claim C4: re-running against an unchanged pull request — same diff, same
pylint output, with the first run's posted comments now among the existing
comments — posts zero new comments. -/
theorem c4_rerun_posts_nothing (diff pylint_stdout : String) (existing : List BBComment)
    (actor : String) :
    run_posts (run diff pylint_stdout
      (existing ++ (run_posts (run diff pylint_stdout existing)).map
        (post_to_comment actor))) = [] := by
  rw [run_posts_eq]
  apply run_lines_all_deduped _ (generate_comments_map existing)
  · intro k hk
    rw [generate_comments_map_append]
    exact List.mem_append_left _ hk
  · intro p hp
    rw [generate_comments_map_append]
    refine List.mem_append_right _ (post_key_mem_posted actor _ p ?_)
    rw [run_posts_eq]
    exact hp

/-- Claim C5 (amended): the command the script runs ends in `; exit 0`, so
the analyzer's exit code is always discarded: `check_output` never raises and
no exit code — above or below any threshold — aborts the run. -/
theorem c5_no_exit_code_aborts (files : List String) (c : Int) :
    check_output_raises (pylint_command files) c = false := by
  have h : pyEndswith (pylint_command files) "; exit 0" = true := by
    unfold pylint_command
    exact pyEndswith_append _ _ _ (by decide)
  unfold check_output_raises shell_exit_code
  rw [if_pos h]
  decide

/-- Claim C5 counterexample: pylint exit codes 32 (usage error, above any
fatal threshold) and 1 (the fatal bit) both leave the subprocess call silent:
nothing aborts. -/
theorem c5_counterexample :
    check_output_raises (pylint_command ["a.py"]) 32 = false ∧
      check_output_raises (pylint_command ["a.py"]) 1 = false :=
  ⟨by decide, by decide⟩

/-- Claim C6 counterexample: an inline comment authored by `mallory` — not by
the account whose credentials the run uses — contributes its key to the dedup
set. -/
theorem c6_counterexample :
    c6_comment.author = "mallory" ∧
      generate_comments_map [c6_comment] = [("3", "a.py", "bad code")] :=
  ⟨rfl, by decide⟩

/-- Claim C6 (amended): the dedup set is scoped only by comment type and
inline presence; rewriting every comment's author leaves it unchanged, so
comments by other authors are in the set exactly like the actor's own. -/
theorem c6_map_ignores_author (cs : List BBComment) (f : BBComment → String) :
    generate_comments_map
        (cs.map (fun c => ⟨c.is_comment_type, f c, c.inline_info, c.content_raw⟩)) =
      generate_comments_map cs := by
  unfold generate_comments_map
  rw [List.filterMap_map]
  rfl

/-- Claim C7 counterexample: the first output line is a partial record (valid
JSON, missing the finding fields); the run aborts on it, and the well-formed
finding on the following line is never processed. -/
theorem c7_counterexample :
    (process_line ((pylint_output_lines c7_stdout).getD 1 "")).isFinding = true ∧
      run c7_diff c7_stdout [] = .aborted [] :=
  ⟨by decide, by decide⟩

/-- Claim C7 (amended): a line on which JSON decoding fails is skipped and
the remaining lines are processed exactly as if the line were absent;
however, a line that decodes as JSON but is not a finding record aborts the
run (see the counterexample). -/
theorem c7_undecodable_line_skipped (pre post : List String) (l : String)
    (cmap : List (String × String × String)) (h : process_line l = .skip) :
    run_lines (pre ++ l :: post) cmap = run_lines (pre ++ post) cmap :=
  run_lines_skip_middle l post cmap h pre

/-- Claim C7 witness: dropping an undecodable line does not change the loop's
outcome. -/
theorem c7_undecodable_line_skipped_witness :
    run_lines ([] ++ "zzz" ::
        ["\"path\":\"c.py\",\"line\":2,\"column\":0,\"msg\":\"M\",\"msg_id\":\"C1\",\"category\":\"convention\",\"symbol\":\"s\"\x7d"]) [] =
      run_lines ([] ++
        ["\"path\":\"c.py\",\"line\":2,\"column\":0,\"msg\":\"M\",\"msg_id\":\"C1\",\"category\":\"convention\",\"symbol\":\"s\"\x7d"]) [] :=
  c7_undecodable_line_skipped [] _ "zzz" [] (by decide)

/-- Claim C8 counterexample: the only finding is deduplicated, zero comments
are posted this run, yet the terminal action is unapprove — not the approve
the claim requires when nothing was posted. -/
theorem c8_counterexample :
    run c8_diff c8_stdout [c8_comment] = .completed [] .unapprove := by decide

/-- Claim C8 (amended): every run whose output lines do not abort it — the
empty-diff-file early return is dead code, a Python 3 filter object being
always truthy, so no diff-file condition is needed — performs exactly one
terminal action (never the no-op: the script has no toggle configuration),
and that action is determined by whether any line decoded to a finding —
independent of the existing comments, hence of how many comments were posted
this run. -/
theorem c8_action_from_parse_not_posts (diff pylint_stdout : String)
    (ex1 ex2 : List BBComment)
    (hnoabort : ∀ l ∈ pylint_output_lines pylint_stdout, process_line l ≠ .abort) :
    run_action (run diff pylint_stdout ex1) = run_action (run diff pylint_stdout ex2) ∧
      run_action (run diff pylint_stdout ex1) ≠ .noaction := by
  obtain ⟨ps1, h1⟩ := run_shape_of_no_abort diff pylint_stdout ex1 hnoabort
  obtain ⟨ps2, h2⟩ := run_shape_of_no_abort diff pylint_stdout ex2 hnoabort
  rw [h1, h2]
  refine ⟨rfl, ?_⟩
  by_cases hp : any_parsed (pylint_output_lines pylint_stdout) = true
  · simp [run_action, hp]
  · simp [run_action, hp]

/-- Claim C8 witness: with and without the deduplicating comment the action
is the same, and is not the no-op. -/
theorem c8_action_from_parse_not_posts_witness :
    run_action (run c8_diff c8_stdout [c8_comment]) =
        run_action (run c8_diff c8_stdout []) ∧
      run_action (run c8_diff c8_stdout [c8_comment]) ≠ .noaction :=
  c8_action_from_parse_not_posts c8_diff c8_stdout [c8_comment] [] (by decide)

/-- Claim C9: with fewer than six user arguments (seven `argv` entries) the
program prints usage and returns 1; with a finite positive retries argument
and no matching open pull request, it exits by `sys.exit(0)` having posted
nothing and changed no approval state. -/
theorem c9_usage_and_missing_pr (args1 args2 : List String) (env : String → String)
    (prs : List PRInfo) (diff pylint_stdout : String) (existing : List BBComment) (n : Nat)
    (h1 : args1.length < 7)
    (h2 : 7 < args2.length)
    (h3 : args2.getD 7 "" ≠ "-")
    (h4 : pyIsAlnum (args2.getD 7 "") = true)
    (h5 : digitsToNat? (args2.getD 7 "") = some n)
    (h6 : 0 < n)
    (h7 : matching_prs prs (effective_branch args2 env) = []) :
    main_model args1 env prs diff pylint_stdout existing = .usageExit1 ∧
      main_model args2 env prs diff pylint_stdout existing = .fetchExit0 ∧
      main_posts (main_model args2 env prs diff pylint_stdout existing) = [] ∧
      approval_changed (main_model args2 env prs diff pylint_stdout existing) = false := by
  have hm1 : main_model args1 env prs diff pylint_stdout existing = .usageExit1 := by
    simp [main_model, h1]
  have hretr : parsed_retries args2 = some (n : Int) := by
    unfold parsed_retries
    rw [if_pos ⟨h2, h3, h4⟩, h5]
  have hn0 : ((n : Int) = 0) = False := by
    simp only [Int.natCast_eq_zero, eq_iff_iff, iff_false]
    omega
  have hnneg : ¬ (n : Int) < 0 := by
    simp only [not_lt]
    exact Int.natCast_nonneg n
  have hfetch : fetch_pull_request prs (effective_branch args2 env) (n : Int) = .exit0 := by
    unfold fetch_pull_request
    rw [if_neg (by simp [hn0]), h7]
    show (if (n : Int) < 0 then FetchOutcome.loops else .exit0) = .exit0
    rw [if_neg hnneg]
  have hm2 : main_model args2 env prs diff pylint_stdout existing = .fetchExit0 := by
    simp only [main_model, if_neg (by omega : ¬ args2.length < 7), hretr, hfetch]
  exact ⟨hm1, hm2, by rw [hm2]; rfl, by rw [hm2]; rfl⟩

/-- Claim C9 witness. -/
theorem c9_usage_and_missing_pr_witness :
    main_model ["prog", "u", "w"] (fun _ => "") [] "" "" [] = .usageExit1 ∧
      main_model ["p", "u", "w", "e", "o", "r", "br", "2"] (fun _ => "") [] "" "" [] =
        .fetchExit0 ∧
      main_posts (main_model ["p", "u", "w", "e", "o", "r", "br", "2"]
        (fun _ => "") [] "" "" []) = [] ∧
      approval_changed (main_model ["p", "u", "w", "e", "o", "r", "br", "2"]
        (fun _ => "") [] "" "" []) = false :=
  c9_usage_and_missing_pr ["prog", "u", "w"] ["p", "u", "w", "e", "o", "r", "br", "2"]
    (fun _ => "") [] "" "" [] 2 (by decide) (by decide) (by decide) (by decide)
    (by decide) (by decide) (by decide)

/-- Claim C10: if at least one output line decodes to a finding (and none
aborts), the run ends by unapproving — even when every finding is
deduplicated and zero comments are posted. -/
theorem c10_parsed_forces_unapprove (diff pylint_stdout : String) (existing : List BBComment)
    (hfiles : get_py_diff_files diff ≠ [])
    (hnoabort : ∀ l ∈ pylint_output_lines pylint_stdout, process_line l ≠ .abort)
    (hparsed : any_parsed (pylint_output_lines pylint_stdout) = true) :
    run_action (run diff pylint_stdout existing) = .unapprove := by
  obtain ⟨ps, hps⟩ := run_shape_of_no_abort diff pylint_stdout existing hnoabort
  rw [hps]
  simp [run_action, hparsed]

/-- Claim C10 witness: every finding is deduplicated — zero comments posted —
and the run still unapproves. -/
theorem c10_parsed_forces_unapprove_witness :
    run_action (run c10_diff c10_stdout [c10_comment]) = .unapprove ∧
      run_posts (run c10_diff c10_stdout [c10_comment]) = [] :=
  ⟨c10_parsed_forces_unapprove c10_diff c10_stdout [c10_comment]
    (by decide) (by decide) (by decide), by decide⟩
